import Mathlib

/-!
Shallow embedding of `src/pipeline_scripts/bedrock_models.py` (class `Pipeline`).

External effects (the boto3 transport calls, `requests.get`, `base64.b64decode`)
are passed in as explicit arguments: an `Except String _` value stands for the
outcome of one Python call, where `Except.error e` means the call raised an
exception whose `str` is `e`.  Python dicts with a fixed key set become
structures; a key that may be absent becomes an `Option` field.
-/

namespace BedrockModels

/-- Entry of the model catalog (`self.pipelines`).  The error sentinels built in
the `except` branches of `get_east_models` / `get_west_models` carry no
`description` key, hence `description : Option String`. -/
structure ModelEntry where
  id : String
  name : String
  region : String
  description : Option String
deriving DecidableEq, Repr

/-- One element of `response["modelSummaries"]` as read by the code:
`modelId`, `modelName`, and `model.get("modelLifecycle", {}).get("status")`
(absent keys give `none`). -/
structure ModelSummary where
  modelId : String
  modelName : String
  status : Option String
deriving DecidableEq, Repr

/-- One element of `response.get("profiles", [])` as read by
`get_cross_region_profiles`: `modelId`, `modelName`, `profile.get("region")`,
`profile.get("status")`. -/
structure InferenceProfile where
  modelId : String
  modelName : String
  region : Option String
  status : Option String
deriving DecidableEq, Repr

/-- Lifecycle filter used by both listings:
`model.get("modelLifecycle", ...).get("status") == "ACTIVE"`. -/
def activeFilter (m : ModelSummary) : Bool :=
  m.status == some "ACTIVE"

/-- Dict built for one active east model in `get_east_models`. -/
def eastEntry (m : ModelSummary) : ModelEntry :=
  { id := m.modelId
    name := m.modelName
    region := "us-east-1"
    description := some (m.modelName ++ " - us-east-1") }

/-- Dict built for one active, not-already-seen west model in `get_west_models`. -/
def westEntry (m : ModelSummary) : ModelEntry :=
  { id := m.modelId
    name := m.modelName
    region := "us-west-2"
    description := some (m.modelName ++ " - us-west-2") }

/-- Pipeline.get_east_models.  `resp` is the outcome of
`self.east_bedrock.list_foundation_models()`; on an exception the `except`
branch returns the sentinel dict, which has only `id`, `name`, `region` keys. -/
def get_east_models (resp : Except String (List ModelSummary)) : List ModelEntry :=
  match resp with
  | Except.ok summaries => (summaries.filter activeFilter).map eastEntry
  | Except.error _ =>
    [{ id := "error", name := "Error fetching east models", region := "us-east-1",
       description := none }]

/-- Pipeline.get_west_models.  Filters to ACTIVE models whose `modelId` is not in
`east_ids`; on an exception returns the (unfiltered) west sentinel dict. -/
def get_west_models (east_ids : List String) (resp : Except String (List ModelSummary)) :
    List ModelEntry :=
  match resp with
  | Except.ok summaries =>
    (summaries.filter (fun m => activeFilter m && decide (m.modelId ∉ east_ids))).map westEntry
  | Except.error _ =>
    [{ id := "error", name := "Error fetching west models", region := "us-west-2",
       description := none }]

/-- Dict built for one selected profile in `get_cross_region_profiles`.  Its
`description` field is an f-string that interpolates `model["modelName"]`,
reading the name `model`; no binding of `model` exists in
`get_cross_region_profiles` (the comprehension variable is `profile`) nor at
module level, so evaluating the dict raises `NameError`. -/
def crossProfileEntry (_p : InferenceProfile) : Except String ModelEntry :=
  Except.error "NameError: name model is not defined"

/-- Pipeline.get_cross_region_profiles.  `resp` is the outcome of
`self.east_bedrock.list_inference_profiles()`.  The comprehension filters to
ACTIVE profiles not in `east_ids` and builds `crossProfileEntry` for each; the
surrounding `except Exception` turns any raised error into `[]`. -/
def get_cross_region_profiles (east_ids : List String)
    (resp : Except String (List InferenceProfile)) : List ModelEntry :=
  match resp with
  | Except.error _ => []
  | Except.ok profiles =>
    let selected :=
      profiles.filter (fun p => p.status == some "ACTIVE" && decide (p.modelId ∉ east_ids))
    match selected.mapM crossProfileEntry with
    | Except.ok entries => entries
    | Except.error _ => []

/-- Outcomes of the three listing calls made during one `get_models` refresh. -/
structure SourceResponses where
  east : Except String (List ModelSummary)
  profilesResp : Except String (List InferenceProfile)
  west : Except String (List ModelSummary)

/-- Pipeline.get_models: east listing, then the east id set, then cross-region
profiles and west listing filtered against that set, concatenated in order. -/
def get_models (r : SourceResponses) : List ModelEntry :=
  let east_models := get_east_models r.east
  let east_ids := east_models.map (fun m => m.id)
  let cross_profiles := get_cross_region_profiles east_ids r.profilesResp
  let west_models := get_west_models east_ids r.west
  east_models ++ cross_profiles ++ west_models

/-- Pipeline.get_model_region: first entry of `self.pipelines` whose `id`
matches wins; the fallback is `"us-east-1"`. -/
def get_model_region (pipelines : List ModelEntry) (model_id : String) : String :=
  match pipelines with
  | [] => "us-east-1"
  | m :: rest => if m.id = model_id then m.region else get_model_region rest model_id

/-- Two pre-built region-scoped runtime clients from `__init__`. -/
inductive RuntimeClient where
  | east
  | west
deriving DecidableEq, Repr

/-- Pipeline.get_runtime_client. -/
def get_runtime_client (region : String) : RuntimeClient :=
  if region = "us-east-1" then RuntimeClient.east else RuntimeClient.west

/-- Byte strings are sequences of byte values. -/
abbrev Bytes := List Nat

/-- The dict stored under an `image_url` item: `item["image_url"]`, read as
`image["url"]` by `process_image`. -/
structure ImageDict where
  url : String
deriving DecidableEq, Repr

/-- Value bound to `img_stream` in `process_image`: either a `BytesIO` object
(inline branch) or the plain `bytes` returned by `requests.get(url).content`
(remote branch). -/
inductive ImgStream where
  | bytesBuf (data : Bytes)
  | rawBytes (data : Bytes)
deriving DecidableEq, Repr

/-- Evaluation of `img_stream.read()`: a `BytesIO` yields its contents, while a
plain `bytes` object has no `read` attribute, so the call raises
`AttributeError`. -/
def streamRead : ImgStream → Except String Bytes
  | ImgStream.bytesBuf data => Except.ok data
  | ImgStream.rawBytes _ => Except.error "AttributeError: bytes object has no attribute read"

/-- The inner dict of the `image` content block produced by `process_image`. -/
structure ImageBlock where
  format : String
  bytes : Bytes
deriving DecidableEq, Repr

/-- Boolean form of `s.startswith(pre)`, computed on the character list so that
it evaluates inside the kernel. -/
def strStarts (pre s : String) : Bool :=
  pre.toList.isPrefixOf s.toList

/-- Boolean form of `s.endswith(suf)`, computed on the character list. -/
def strEnds (suf s : String) : Bool :=
  suf.toList.reverse.isPrefixOf s.toList.reverse

/-- Element 1 of `image["url"].split(',')`: the characters strictly between the
first comma and the following comma or end of string (the branch is only
reached when a comma is present, so the element exists). -/
def splitComma1 (s : String) : String :=
  String.mk (((s.toList.dropWhile (fun c => !(c = ','))).drop 1).takeWhile (fun c => !(c = ',')))

/-- Pipeline.process_image.  `b64decode` stands for `base64.b64decode` and
`httpGet` for `requests.get(url).content` (its error case is a raised request
exception).  In the inline branch, when the url has no comma the name
`base64_string` is never assigned, so `base64.b64decode(base64_string)` raises
`NameError`.  In the remote branch `img_stream` is a `bytes` object and the
final `img_stream.read()` raises `AttributeError`. -/
def process_image (b64decode : String → Except String Bytes)
    (httpGet : String → Except String Bytes) (image : ImageDict) :
    Except String ImageBlock :=
  let stream : Except String ImgStream :=
    if strStarts "data:image" image.url then
      if (image.url.toList.contains ',') then
        match b64decode (splitComma1 image.url) with
        | Except.ok data => Except.ok (ImgStream.bytesBuf data)
        | Except.error e => Except.error e
      else
        Except.error "NameError: name base64_string is not defined"
    else
      match httpGet image.url with
      | Except.ok content => Except.ok (ImgStream.rawBytes content)
      | Except.error e => Except.error e
  match stream with
  | Except.error e => Except.error e
  | Except.ok s =>
    match streamRead s with
    | Except.error e => Except.error e
    | Except.ok bs =>
      Except.ok { format := if strEnds ".png" image.url then "png" else "jpeg", bytes := bs }

/-- One element of a mixed content list, discriminated on `item["type"]`:
a `text` item carries `item["text"]`, an `image_url` item carries
`item["image_url"]`, and any other value of `item["type"]` is retained only as
that tag (the loop reads nothing else from such items). -/
inductive ContentItem where
  | text (s : String)
  | image_url (image : ImageDict)
  | other (ty : String)
deriving DecidableEq, Repr

/-- Value of `message.get("content")`: a plain string, a mixed list, or a
missing key (Python `None`). -/
inductive RawContent where
  | str (s : String)
  | items (l : List ContentItem)
  | missing
deriving DecidableEq, Repr

/-- One inbound chat message after `pop_system_message`. -/
structure RawMessage where
  role : String
  content : RawContent
deriving DecidableEq, Repr

/-- One element of `processed_content`: either `{"text": ...}` or the
`{"image": ...}` dict returned by `process_image`. -/
inductive Block where
  | text (s : String)
  | image (img : ImageBlock)
deriving DecidableEq, Repr

/-- One element of `processed_messages`. -/
structure ProcessedMessage where
  role : String
  content : List Block
deriving DecidableEq, Repr

/-- Normalization loop of `pipe` over the items of one mixed content list.
`procImg` stands for `self.process_image` (with its network/decode effects),
`n` is the running `image_count`.  The first component is the Python outcome
(`processed_content` with the updated counter, or the raised exception); the
second component records, in call order, the image dicts actually passed to
`process_image` — including on paths that later raise. -/
def processItemsR (procImg : ImageDict → Except String ImageBlock) :
    List ContentItem → Nat → (Except String (List Block × Nat)) × List ImageDict
  | [], n => (Except.ok ([], n), [])
  | ContentItem.text s :: rest, n =>
    let r := processItemsR procImg rest n
    (match r.fst with
     | Except.ok (bs, n2) => (Except.ok (Block.text s :: bs, n2), r.snd)
     | Except.error e => (Except.error e, r.snd))
  | ContentItem.image_url img :: rest, n =>
    if n ≥ 20 then
      (Except.error "Maximum of 20 images per API call exceeded", [])
    else
      match procImg img with
      | Except.error e => (Except.error e, [img])
      | Except.ok pi =>
        let r := processItemsR procImg rest (n + 1)
        (match r.fst with
         | Except.ok (bs, n2) => (Except.ok (Block.image pi :: bs, n2), img :: r.snd)
         | Except.error e => (Except.error e, img :: r.snd))
  | ContentItem.other _ :: rest, n => processItemsR procImg rest n

/-- Normalization loop of `pipe` over the whole message list: a list content
goes through the item loop, while any other content becomes the single block
`{"text": message.get("content", "")}`. -/
def processMessagesR (procImg : ImageDict → Except String ImageBlock) :
    List RawMessage → Nat → (Except String (List ProcessedMessage × Nat)) × List ImageDict
  | [], n => (Except.ok ([], n), [])
  | m :: rest, n =>
    let rc : (Except String (List Block × Nat)) × List ImageDict :=
      match m.content with
      | RawContent.items l => processItemsR procImg l n
      | RawContent.str s => (Except.ok ([Block.text s], n), [])
      | RawContent.missing => (Except.ok ([Block.text ""], n), [])
    match rc.fst with
    | Except.error e => (Except.error e, rc.snd)
    | Except.ok (content, n2) =>
      let r := processMessagesR procImg rest n2
      (match r.fst with
       | Except.ok (ms, n3) =>
         (Except.ok ({ role := m.role, content := content } :: ms, n3), rc.snd ++ r.snd)
       | Except.error e => (Except.error e, rc.snd ++ r.snd))

/-- Recognized keys of the `body` dict; a `none` field is an absent key, read
through `body.get(key, default)`.  Floats are modelled as rationals. -/
structure Body where
  temperature : Option Rat
  top_k : Option Int
  top_p : Option Rat
  stream : Bool
deriving DecidableEq, Repr

/-- The `additionalModelRequestFields` dict of the payload. -/
structure AddlFields where
  top_k : Int
  top_p : Rat
deriving DecidableEq, Repr

/-- Text of the single `system` block:
`system_message if system_message else "you are an intelligent ai assistant"`
(an empty string is falsy in Python, so it also selects the default). -/
def systemText (system_message : Option String) : String :=
  match system_message with
  | some s => if s = "" then "you are an intelligent ai assistant" else s
  | none => "you are an intelligent ai assistant"

/-- The `payload` dict built in `pipe`.  `inferenceConfig` holds its single key
`temperature`; `system` and `additionalModelRequestFields` are `Option`s
because `stream_response` deletes those keys. -/
structure Payload where
  modelId : String
  messages : List ProcessedMessage
  system : Option (List Block)
  inferenceConfig : Rat
  additionalModelRequestFields : Option AddlFields
deriving DecidableEq, Repr

/-- Construction of `payload` in `pipe` from the processed messages, the popped
system message and the body defaults (temperature 0.5, top_k 200, top_p 0.9). -/
def build_payload (model_id : String) (processed_messages : List ProcessedMessage)
    (system_message : Option String) (body : Body) : Payload :=
  { modelId := model_id
    messages := processed_messages
    system := some [Block.text (systemText system_message)]
    inferenceConfig := body.temperature.getD ((1 : Rat) / 2)
    additionalModelRequestFields :=
      some { top_k := body.top_k.getD 200, top_p := body.top_p.getD ((9 : Rat) / 10) } }

/-- Deletion of the `system` and `additionalModelRequestFields` keys performed
by `stream_response` before calling `converse_stream`. -/
def strip_payload (p : Payload) : Payload :=
  { p with system := none, additionalModelRequestFields := none }

/-- One event of `streaming_response["stream"]`; only events carrying a
`contentBlockDelta` key are yielded. -/
inductive Chunk where
  | contentBlockDelta (text : String)
  | otherEvent
deriving DecidableEq, Repr

/-- The generator object returned by calling `stream_response`: Python does not
run a generator body at call time, so the object merely captures the
arguments. -/
structure StreamGen where
  model_id : String
  payload : Payload
  region : String
deriving DecidableEq, Repr

/-- Pipeline.stream_response.  Calling it only creates the generator; see
`consume_stream` for the deferred body. -/
def stream_response (model_id : String) (payload : Payload) (region : String) : StreamGen :=
  { model_id := model_id, payload := payload, region := region }

/-- Deferred body of `stream_response`, executed only when the caller iterates
the generator: resolve the runtime client, delete the `system` and
`additionalModelRequestFields` keys, call `converse_stream`, and yield the
`contentBlockDelta` texts in order.  `converse_stream` is the transport call;
`Except.error` is an exception it raises, which propagates to the iterating
caller (no handler exists inside the generator). -/
def consume_stream (converse_stream : RuntimeClient → Payload → Except String (List Chunk))
    (g : StreamGen) : Except String (List String) :=
  match converse_stream (get_runtime_client g.region) (strip_payload g.payload) with
  | Except.error e => Except.error e
  | Except.ok chunks =>
    Except.ok (chunks.filterMap (fun c =>
      match c with
      | Chunk.contentBlockDelta t => some t
      | Chunk.otherEvent => none))

/-- Shape of `response["output"]["message"]` as read by `get_completion`:
the `text` fields of its `content` list. -/
structure ConverseOutput where
  content : List String
deriving DecidableEq, Repr

/-- Pipeline.get_completion.  `converse` is the blocking transport call; an
empty `content` list makes `content[0]` raise `IndexError`. -/
def get_completion (converse : RuntimeClient → Payload → Except String ConverseOutput)
    (payload : Payload) (region : String) : Except String String :=
  match converse (get_runtime_client region) payload with
  | Except.error e => Except.error e
  | Except.ok resp =>
    match resp.content with
    | [] => Except.error "IndexError: list index out of range"
    | t :: _ => Except.ok t

/-- Value returned by `pipe` to the host: a completion string, an
`"Error: ..."` string from the `except` branch, or the generator object of the
streaming branch. -/
inductive PipeResult where
  | completion (s : String)
  | errorString (s : String)
  | stream (g : StreamGen)
deriving DecidableEq, Repr

/-- Pipeline.pipe, after `pop_system_message` (an external collaborator from
`utils.pipelines.main`) has split the input into `system_message` and
`messages`.  The `try` block runs normalization, payload construction, region
lookup and — on the blocking path — `get_completion`; any exception becomes the
string `"Error: " ++ e`.  On the streaming path the `try` block only creates
the generator (`stream_response` never raises at call time). -/
def pipe (procImg : ImageDict → Except String ImageBlock)
    (converse : RuntimeClient → Payload → Except String ConverseOutput)
    (pipelines : List ModelEntry) (model_id : String)
    (system_message : Option String) (messages : List RawMessage) (body : Body) :
    PipeResult :=
  let attempt : Except String PipeResult :=
    match (processMessagesR procImg messages 0).fst with
    | Except.error e => Except.error e
    | Except.ok (processed_messages, _) =>
      let payload := build_payload model_id processed_messages system_message body
      let region := get_model_region pipelines model_id
      if body.stream then
        Except.ok (PipeResult.stream (stream_response model_id payload region))
      else
        match get_completion converse payload region with
        | Except.ok text => Except.ok (PipeResult.completion text)
        | Except.error e => Except.error e
  match attempt with
  | Except.ok r => r
  | Except.error e => PipeResult.errorString ("Error: " ++ e)

/-- Image dicts of one content list, in item order. -/
def imageRefsItems : List ContentItem → List ImageDict
  | [] => []
  | ContentItem.image_url i :: rest => i :: imageRefsItems rest
  | ContentItem.text _ :: rest => imageRefsItems rest
  | ContentItem.other _ :: rest => imageRefsItems rest

/-- Image dicts contributed by one message (list contents only; flat or missing
content contains no image items). -/
def msgRefs (m : RawMessage) : List ImageDict :=
  match m.content with
  | RawContent.items l => imageRefsItems l
  | RawContent.str _ => []
  | RawContent.missing => []

/-- Image dicts of a whole message list, in processing order. -/
def imageRefs : List RawMessage → List ImageDict
  | [] => []
  | m :: rest => msgRefs m ++ imageRefs rest

/-- Blocks produced from one content list when every image processes
successfully, `f` giving the processed block of each image dict: text items
become text blocks, image items become image blocks, other items disappear. -/
def itemsBlocks (f : ImageDict → ImageBlock) : List ContentItem → List Block
  | [] => []
  | ContentItem.text s :: rest => Block.text s :: itemsBlocks f rest
  | ContentItem.image_url i :: rest => Block.image (f i) :: itemsBlocks f rest
  | ContentItem.other _ :: rest => itemsBlocks f rest

/-- Content blocks of one message when every image processes successfully. -/
def normContentOk (f : ImageDict → ImageBlock) : RawContent → List Block
  | RawContent.str s => [Block.text s]
  | RawContent.missing => [Block.text ""]
  | RawContent.items l => itemsBlocks f l

/-- Processed form of one message when every image processes successfully. -/
def normMsgOk (f : ImageDict → ImageBlock) (m : RawMessage) : ProcessedMessage :=
  { role := m.role, content := normContentOk f m.content }

/-! Helper lemmas shared by several claims. -/

/-- Building any selected cross-region profile entry raises `NameError`, and the
`except` branch turns that into `[]`, so `get_cross_region_profiles` returns the
empty list on every input. -/
theorem get_cross_region_profiles_eq_nil (east_ids : List String)
    (resp : Except String (List InferenceProfile)) :
    get_cross_region_profiles east_ids resp = [] := by
  cases resp with
  | error e => rfl
  | ok profiles =>
    simp only [get_cross_region_profiles]
    cases hsel : profiles.filter
        (fun p => p.status == some "ACTIVE" && decide (p.modelId ∉ east_ids)) with
    | nil => rfl
    | cons a l => rfl

@[simp] theorem eastEntry_id (m : ModelSummary) : (eastEntry m).id = m.modelId := rfl

@[simp] theorem eastEntry_region (m : ModelSummary) : (eastEntry m).region = "us-east-1" := rfl

@[simp] theorem westEntry_id (m : ModelSummary) : (westEntry m).id = m.modelId := rfl

@[simp] theorem westEntry_region (m : ModelSummary) : (westEntry m).region = "us-west-2" := rfl

/-- Filtering by a conjunction keeps a sublist of filtering by the left
conjunct alone. -/
theorem filter_and_sublist {α : Type} (p q : α → Bool) :
    ∀ l : List α, List.Sublist (l.filter (fun a => p a && q a)) (l.filter p) := by
  intro l
  induction l with
  | nil => simp
  | cons a l ih =>
    cases hp : p a with
    | false => simpa [List.filter_cons, hp] using ih
    | true =>
      cases hq : q a with
      | false => simpa [List.filter_cons, hp, hq] using ih.cons a
      | true => simpa [List.filter_cons, hp, hq] using ih.cons₂ a

/-- Shape of a catalog refresh when both regional listing calls succeed:
the east group, then the (always empty) cross-region group, then the west
group filtered against the east ids. -/
theorem get_models_ok_eq (es ws : List ModelSummary)
    (pr : Except String (List InferenceProfile)) :
    get_models ⟨Except.ok es, pr, Except.ok ws⟩ =
      (es.filter activeFilter).map eastEntry ++
        (ws.filter (fun m => activeFilter m &&
            decide (m.modelId ∉ (es.filter activeFilter).map (fun m2 => m2.modelId)))).map
          westEntry := by
  simp only [get_models, get_east_models, get_west_models, get_cross_region_profiles_eq_nil,
    List.nil_append, List.append_nil, List.map_map, Function.comp_def, eastEntry_id]

/-- Success run of the item loop when every image processes: text items become
text blocks, image items become image blocks in order, other items vanish, the
counter advances by the number of images, and exactly those images are passed
to `process_image`. -/
theorem processItemsR_ok (f : ImageDict → ImageBlock) :
    ∀ (l : List ContentItem) (n : Nat), n + (imageRefsItems l).length ≤ 20 →
    processItemsR (fun i => Except.ok (f i)) l n =
      (Except.ok (itemsBlocks f l, n + (imageRefsItems l).length), imageRefsItems l) := by
  intro l
  induction l with
  | nil => intro n h; simp [processItemsR, imageRefsItems, itemsBlocks]
  | cons it rest ih =>
    intro n h
    cases it with
    | text s =>
      have h' : n + (imageRefsItems rest).length ≤ 20 := by
        simpa [imageRefsItems] using h
      simp [processItemsR, imageRefsItems, itemsBlocks, ih n h']
    | image_url i =>
      simp only [imageRefsItems, List.length_cons] at h
      have hn : ¬ n ≥ 20 := by omega
      have h' : n + 1 + (imageRefsItems rest).length ≤ 20 := by omega
      have harith : n + 1 + (imageRefsItems rest).length =
          n + ((imageRefsItems rest).length + 1) := by omega
      simp [processItemsR, hn, ih (n + 1) h', imageRefsItems, itemsBlocks, harith]
    | other ty =>
      have h' : n + (imageRefsItems rest).length ≤ 20 := by
        simpa [imageRefsItems] using h
      simp [processItemsR, imageRefsItems, itemsBlocks, ih n h']

/-- Overflow run of the item loop when every image processes: as soon as the
counter reaches the cap at an image item, the loop raises the quota error, and
only the images within the remaining budget were passed to `process_image`. -/
theorem processItemsR_quota (f : ImageDict → ImageBlock) :
    ∀ (l : List ContentItem) (n : Nat), n ≤ 20 → 20 - n < (imageRefsItems l).length →
    processItemsR (fun i => Except.ok (f i)) l n =
      (Except.error "Maximum of 20 images per API call exceeded",
        (imageRefsItems l).take (20 - n)) := by
  intro l
  induction l with
  | nil => intro n h1 h2; simp [imageRefsItems] at h2
  | cons it rest ih =>
    intro n h1 h2
    cases it with
    | text s =>
      have h2' : 20 - n < (imageRefsItems rest).length := by
        simpa [imageRefsItems] using h2
      simp [processItemsR, imageRefsItems, ih n h1 h2']
    | other ty =>
      have h2' : 20 - n < (imageRefsItems rest).length := by
        simpa [imageRefsItems] using h2
      simp [processItemsR, imageRefsItems, ih n h1 h2']
    | image_url i =>
      by_cases hn : n ≥ 20
      · have hz : 20 - n = 0 := by omega
        simp [processItemsR, hn, hz]
      · simp only [imageRefsItems, List.length_cons] at h2
        have h2' : 20 - (n + 1) < (imageRefsItems rest).length := by omega
        have htake : 20 - n = (20 - (n + 1)) + 1 := by omega
        simp [processItemsR, hn, ih (n + 1) (by omega) h2', imageRefsItems, htake,
          List.take_succ_cons]

/-- Success run of the message loop when every image processes. -/
theorem processMessagesR_ok (f : ImageDict → ImageBlock) :
    ∀ (msgs : List RawMessage) (n : Nat), n + (imageRefs msgs).length ≤ 20 →
    processMessagesR (fun i => Except.ok (f i)) msgs n =
      (Except.ok (msgs.map (normMsgOk f), n + (imageRefs msgs).length), imageRefs msgs) := by
  intro msgs
  induction msgs with
  | nil => intro n h; simp [processMessagesR, imageRefs]
  | cons m rest ih =>
    intro n h
    simp only [imageRefs, List.length_append] at h
    cases hc : m.content with
    | str s =>
      have hm : msgRefs m = [] := by simp [msgRefs, hc]
      have h' : n + (imageRefs rest).length ≤ 20 := by rw [hm] at h; simpa using h
      simp [processMessagesR, hc, ih n h', imageRefs, hm, normMsgOk, normContentOk]
    | missing =>
      have hm : msgRefs m = [] := by simp [msgRefs, hc]
      have h' : n + (imageRefs rest).length ≤ 20 := by rw [hm] at h; simpa using h
      simp [processMessagesR, hc, ih n h', imageRefs, hm, normMsgOk, normContentOk]
    | items l =>
      have hm : msgRefs m = imageRefsItems l := by simp [msgRefs, hc]
      rw [hm] at h
      have hitems : n + (imageRefsItems l).length ≤ 20 := by omega
      have h' : (n + (imageRefsItems l).length) + (imageRefs rest).length ≤ 20 := by omega
      have harith : n + (imageRefsItems l).length + (imageRefs rest).length =
          n + ((imageRefsItems l).length + (imageRefs rest).length) := by omega
      simp [processMessagesR, hc, processItemsR_ok f l n hitems, ih _ h', imageRefs, hm,
        normMsgOk, normContentOk, harith]

/-- Overflow run of the message loop when every image processes: the running
counter crosses the cap inside some message, the quota error aborts the whole
normalization, and only the first `20 - n` images were passed to
`process_image`. -/
theorem processMessagesR_quota (f : ImageDict → ImageBlock) :
    ∀ (msgs : List RawMessage) (n : Nat), n ≤ 20 → 20 - n < (imageRefs msgs).length →
    processMessagesR (fun i => Except.ok (f i)) msgs n =
      (Except.error "Maximum of 20 images per API call exceeded",
        (imageRefs msgs).take (20 - n)) := by
  intro msgs
  induction msgs with
  | nil => intro n h1 h2; simp [imageRefs] at h2
  | cons m rest ih =>
    intro n h1 h2
    simp only [imageRefs, List.length_append] at h2
    cases hc : m.content with
    | str s =>
      have hm : msgRefs m = [] := by simp [msgRefs, hc]
      rw [hm] at h2
      have h2' : 20 - n < (imageRefs rest).length := by simpa using h2
      simp [processMessagesR, hc, ih n h1 h2', imageRefs, hm]
    | missing =>
      have hm : msgRefs m = [] := by simp [msgRefs, hc]
      rw [hm] at h2
      have h2' : 20 - n < (imageRefs rest).length := by simpa using h2
      simp [processMessagesR, hc, ih n h1 h2', imageRefs, hm]
    | items l =>
      have hm : msgRefs m = imageRefsItems l := by simp [msgRefs, hc]
      rw [hm] at h2
      by_cases hl : 20 - n < (imageRefsItems l).length
      · have hq := processItemsR_quota f l n h1 hl
        have htake : (imageRefsItems l ++ imageRefs rest).take (20 - n) =
            (imageRefsItems l).take (20 - n) :=
          List.take_append_of_le_length (by omega)
        simp [processMessagesR, hc, hq, imageRefs, hm, htake]
      · have hlen : (imageRefsItems l).length ≤ 20 - n := by omega
        have hitems : n + (imageRefsItems l).length ≤ 20 := by omega
        have hok := processItemsR_ok f l n hitems
        have h1' : n + (imageRefsItems l).length ≤ 20 := hitems
        have h2' : 20 - (n + (imageRefsItems l).length) < (imageRefs rest).length := by omega
        have hrec := ih (n + (imageRefsItems l).length) h1' h2'
        have harith : 20 - n - (imageRefsItems l).length =
            20 - (n + (imageRefsItems l).length) := by omega
        have htake : (imageRefsItems l ++ imageRefs rest).take (20 - n) =
            imageRefsItems l ++ (imageRefs rest).take (20 - (n + (imageRefsItems l).length)) := by
          rw [List.take_append_eq_append_take, List.take_of_length_le hlen, harith]
        simp [processMessagesR, hc, hok, hrec, imageRefs, hm, htake]

/-- Claim C1, amended.  When both regional listing calls succeed and, within
each listing, the ACTIVE model ids are pairwise distinct, no two entries of the
refreshed catalog share an id; and whenever the same id appears in both the
east and the west listing, the catalog retains the east entry and contains no
west entry for it.  (Without those provisos the claim fails: the two failure
sentinels share the id `"error"`, see the counterexample, and in-source
duplicates or an id also equal to `"error"` survive as duplicates.) -/
theorem C1_catalog_dedup (es ws : List ModelSummary)
    (pr : Except String (List InferenceProfile))
    (hes : ((es.filter activeFilter).map (fun m => m.modelId)).Nodup)
    (hws : ((ws.filter activeFilter).map (fun m => m.modelId)).Nodup) :
    ((get_models ⟨Except.ok es, pr, Except.ok ws⟩).map (fun m => m.id)).Nodup ∧
    (∀ m ∈ es.filter activeFilter, ∀ w ∈ ws.filter activeFilter, w.modelId = m.modelId →
      eastEntry m ∈ get_models ⟨Except.ok es, pr, Except.ok ws⟩ ∧
      westEntry w ∉ get_models ⟨Except.ok es, pr, Except.ok ws⟩) := by
  rw [get_models_ok_eq]
  constructor
  · rw [List.map_append, List.nodup_append]
    refine ⟨?_, ?_, ?_⟩
    · simpa [List.map_map, Function.comp] using hes
    · have hsub : List.Sublist
          (ws.filter (fun m => activeFilter m &&
            decide (m.modelId ∉ (es.filter activeFilter).map (fun m2 => m2.modelId))))
          (ws.filter activeFilter) :=
        filter_and_sublist activeFilter _ ws
      have hws2 : ((ws.filter activeFilter).map westEntry).map (fun m => m.id) |>.Nodup := by
        simpa [List.map_map, Function.comp_def] using hws
      exact List.Nodup.sublist ((hsub.map westEntry).map (fun m => m.id)) hws2
    · intro a ha hb
      simp only [List.map_map, Function.comp_def, eastEntry_id] at ha
      simp only [List.map_map, Function.comp_def, westEntry_id] at hb
      obtain ⟨w, hwmem, hwa⟩ := List.mem_map.mp hb
      have hw2 := (List.mem_filter.mp hwmem).2
      simp only [Bool.and_eq_true, decide_eq_true_eq] at hw2
      apply hw2.2
      rw [hwa]
      exact ha
  · intro m hm w hw hid
    constructor
    · exact List.mem_append_left _ (List.mem_map_of_mem eastEntry hm)
    · intro hmem
      rcases List.mem_append.mp hmem with hE | hW
      · obtain ⟨m2, _, heq⟩ := List.mem_map.mp hE
        have : "us-east-1" = "us-west-2" := congrArg ModelEntry.region heq
        simp at this
      · obtain ⟨w2, hw2, heq⟩ := List.mem_map.mp hW
        simp only [List.mem_filter, Bool.and_eq_true, decide_eq_true_eq] at hw2
        have hid2 : w2.modelId = w.modelId := congrArg ModelEntry.id heq
        have hmm : m.modelId ∈ (es.filter activeFilter).map (fun m2 => m2.modelId) :=
          List.mem_map_of_mem (fun m2 => m2.modelId) hm
        apply hw2.2.2
        rw [hid2, hid]
        exact hmm

/-- Witness for C1 at concrete listings that share the id `m1`. -/
theorem C1_catalog_dedup_witness :
    ((get_models ⟨Except.ok [⟨"m1", "M1", some "ACTIVE"⟩],
        Except.ok [],
        Except.ok [⟨"m1", "M1 west", some "ACTIVE"⟩, ⟨"m2", "M2", some "ACTIVE"⟩]⟩).map
      (fun m => m.id)).Nodup ∧
    eastEntry ⟨"m1", "M1", some "ACTIVE"⟩ ∈
      get_models ⟨Except.ok [⟨"m1", "M1", some "ACTIVE"⟩],
        Except.ok [],
        Except.ok [⟨"m1", "M1 west", some "ACTIVE"⟩, ⟨"m2", "M2", some "ACTIVE"⟩]⟩ ∧
    westEntry ⟨"m1", "M1 west", some "ACTIVE"⟩ ∉
      get_models ⟨Except.ok [⟨"m1", "M1", some "ACTIVE"⟩],
        Except.ok [],
        Except.ok [⟨"m1", "M1 west", some "ACTIVE"⟩, ⟨"m2", "M2", some "ACTIVE"⟩]⟩ := by
  have h := C1_catalog_dedup [⟨"m1", "M1", some "ACTIVE"⟩]
    [⟨"m1", "M1 west", some "ACTIVE"⟩, ⟨"m2", "M2", some "ACTIVE"⟩]
    (Except.ok []) (by decide) (by decide)
  have h2 := h.2 ⟨"m1", "M1", some "ACTIVE"⟩ (by decide) ⟨"m1", "M1 west", some "ACTIVE"⟩
    (by decide) rfl
  exact ⟨h.1, h2.1, h2.2⟩

/-! Claim theorems on dispatch and normalization. -/

/-- Claim C1, counterexample.  When both regional listing calls raise, the
catalog produced by `get_models` holds the east sentinel and the west sentinel,
two distinct entries that share the id `"error"` — refuting that no two entries
of a refreshed catalog ever share an id. -/
theorem C1_counterexample :
    ((get_models ⟨Except.error "boom", Except.ok [], Except.error "crash"⟩).map
        (fun m => m.id) = ["error", "error"]) ∧
    ¬ ((get_models ⟨Except.error "boom", Except.ok [], Except.error "crash"⟩).map
        (fun m => m.id)).Nodup := by
  exact ⟨rfl, by decide⟩

/-- Claim C2 (code bug), evaluated at a failing input.  With `stream = true`,
`pipe` returns the generator object unevaluated, so an exception raised by
`converse_stream` is thrown to the caller when it iterates the stream — it is
not converted into an `"Error:"` string.  The third conjunct shows the contrast:
the same transport failure on the blocking path is caught at the dispatch
boundary and returned as an error string. -/
theorem C2_stream_error_escapes :
    pipe (fun _ => Except.error "unused") (fun _ _ => Except.error "unused") [] "m" none
        [{ role := "user", content := RawContent.str "hello" }] ⟨none, none, none, true⟩ =
      PipeResult.stream (stream_response "m"
        (build_payload "m" [{ role := "user", content := [Block.text "hello"] }] none
          ⟨none, none, none, true⟩) "us-east-1") ∧
    consume_stream (fun _ _ => Except.error "ConnectionError: transport failure")
        (stream_response "m"
          (build_payload "m" [{ role := "user", content := [Block.text "hello"] }] none
            ⟨none, none, none, true⟩) "us-east-1") =
      Except.error "ConnectionError: transport failure" ∧
    pipe (fun _ => Except.error "unused")
        (fun _ _ => Except.error "ConnectionError: transport failure") [] "m" none
        [{ role := "user", content := RawContent.str "hello" }] ⟨none, none, none, false⟩ =
      PipeResult.errorString "Error: ConnectionError: transport failure" := by
  exact ⟨rfl, rfl, rfl⟩

/-- Claim C3.  For every input, the payload sent on the streaming path (after
`stream_response` deletes keys) and the payload of the blocking path agree on
`modelId`, `messages` and `inferenceConfig`; the `system` block and the
extended sampling fields `top_k` / `top_p` are present in the blocking payload
and absent from the streaming payload. -/
theorem C3_payload_divergence (model_id : String) (pm : List ProcessedMessage)
    (system_message : Option String) (body : Body) :
    (strip_payload (build_payload model_id pm system_message body)).modelId =
        (build_payload model_id pm system_message body).modelId ∧
    (strip_payload (build_payload model_id pm system_message body)).messages =
        (build_payload model_id pm system_message body).messages ∧
    (strip_payload (build_payload model_id pm system_message body)).inferenceConfig =
        (build_payload model_id pm system_message body).inferenceConfig ∧
    (build_payload model_id pm system_message body).system =
        some [Block.text (systemText system_message)] ∧
    (build_payload model_id pm system_message body).additionalModelRequestFields =
        some { top_k := body.top_k.getD 200, top_p := body.top_p.getD ((9 : Rat) / 10) } ∧
    (strip_payload (build_payload model_id pm system_message body)).system = none ∧
    (strip_payload (build_payload model_id pm system_message body)).additionalModelRequestFields =
        none := by
  exact ⟨rfl, rfl, rfl, rfl, rfl, rfl, rfl⟩

/-- Claim C4 (code bug), evaluated at a failing input.  A remote image whose
fetch succeeds does not yield an image block: the remote branch binds
`img_stream` to the `bytes` object `requests.get(url).content`, and
`img_stream.read()` raises `AttributeError`.  The second conjunct shows that
the inline branch (a `BytesIO`) does return a block, so the remote slip is
isolated. -/
theorem C4_remote_image_raises :
    process_image (fun _ => Except.ok []) (fun _ => Except.ok [1, 2, 3])
        ⟨"http://example.com/a.png"⟩ =
      Except.error "AttributeError: bytes object has no attribute read" ∧
    process_image (fun _ => Except.ok [7]) (fun _ => Except.ok [1, 2, 3])
        ⟨"data:image/png;base64,AAAA"⟩ =
      Except.ok { format := "jpeg", bytes := [7] } := by
  exact ⟨rfl, rfl⟩

/-- Claim C5, counterexample.  When the east listing raises, the catalog
contains the sentinel entry with id `"error"`, but that entry carries no
description at all (the sentinel dict has only `id`, `name`, `region` keys) —
refuting that the sentinel has a description naming the failure. -/
theorem C5_counterexample :
    get_models ⟨Except.error "boom", Except.ok [], Except.ok []⟩ =
      [{ id := "error", name := "Error fetching east models", region := "us-east-1",
         description := none }] ∧
    (get_models ⟨Except.error "boom", Except.ok [], Except.ok []⟩).all
      (fun e => e.description.isNone) = true := by
  exact ⟨rfl, rfl⟩

/-- Claim C5, amended.  When the east listing raises, the catalog is the east
sentinel — id `"error"`, its `name` (not a description) naming the failure, no
description field — followed by the surviving west entries: the cross-region
and west sources are still queried with seen-id set `{"error"}` and their
results still appended (the cross-region group is empty on every input, see
`get_cross_region_profiles_eq_nil`). -/
theorem C5_east_failure_isolated (msg : String) (pr : Except String (List InferenceProfile))
    (ws : List ModelSummary) :
    get_models ⟨Except.error msg, pr, Except.ok ws⟩ =
      { id := "error", name := "Error fetching east models", region := "us-east-1",
        description := none } ::
        (ws.filter (fun m => activeFilter m && decide (m.modelId ∉ ["error"]))).map
          westEntry := by
  simp only [get_models, get_east_models, get_west_models, List.map,
    get_cross_region_profiles_eq_nil]
  rfl

/-- Claim C6 (code bug), evaluated at a failing input.  An ACTIVE inference
profile whose id was not seen in the east listing never reaches the catalog:
building its entry evaluates the description f-string, which reads the unbound
name `model` and raises `NameError`, so the whole comprehension is caught and
replaced by `[]`. -/
theorem C6_cross_profile_dropped :
    get_cross_region_profiles [] (Except.ok [⟨"p1", "P1", none, some "ACTIVE"⟩]) = [] ∧
    get_models ⟨Except.ok [], Except.ok [⟨"p1", "P1", none, some "ACTIVE"⟩], Except.ok []⟩ =
      [] := by
  exact ⟨rfl, rfl⟩

/-- Claim C7.  With every image processing successfully, a message list whose
total image count is exactly 20 normalizes successfully — the final counter is
20 and exactly the 20 images were passed to `process_image` — while a list with
21 image items aborts with the quota `ValueError` (caught by `pipe` as
`"Error: Maximum of 20 images per API call exceeded"`) and only the first 20
images were ever passed to `process_image`: the 21st is never fetched or
decoded. -/
theorem C7_image_cap :
    (∀ (msgs : List RawMessage) (f : ImageDict → ImageBlock),
        (imageRefs msgs).length = 20 →
        processMessagesR (fun i => Except.ok (f i)) msgs 0 =
          (Except.ok (msgs.map (normMsgOk f), 20), imageRefs msgs)) ∧
    (∀ (msgs : List RawMessage) (f : ImageDict → ImageBlock),
        (imageRefs msgs).length = 21 →
        processMessagesR (fun i => Except.ok (f i)) msgs 0 =
          (Except.error "Maximum of 20 images per API call exceeded",
            (imageRefs msgs).take 20)) := by
  constructor
  · intro msgs f h
    have := processMessagesR_ok f msgs 0 (by omega)
    rw [h] at this
    simpa using this
  · intro msgs f h
    have := processMessagesR_quota f msgs 0 (by omega) (by omega)
    simpa using this

/-- Witness for C7: one message with exactly 20 image items normalizes to 20
image blocks with counter 20, and one message with 21 image items yields the
quota error with only the first 20 images passed to `process_image`. -/
theorem C7_image_cap_witness :
    processMessagesR (fun _ => Except.ok { format := "jpeg", bytes := [] })
        [{ role := "user",
           content := RawContent.items
             (List.replicate 20 (ContentItem.image_url { url := "u" })) }] 0 =
      (Except.ok
        ([{ role := "user",
            content := List.replicate 20 (Block.image { format := "jpeg", bytes := [] }) }],
          20),
        List.replicate 20 (ImageDict.mk "u")) ∧
    processMessagesR (fun _ => Except.ok { format := "jpeg", bytes := [] })
        [{ role := "user",
           content := RawContent.items
             (List.replicate 21 (ContentItem.image_url { url := "u" })) }] 0 =
      (Except.error "Maximum of 20 images per API call exceeded",
        List.replicate 20 (ImageDict.mk "u")) :=
  ⟨C7_image_cap.1 _ (fun _ => { format := "jpeg", bytes := [] }) rfl,
   C7_image_cap.2 _ (fun _ => { format := "jpeg", bytes := [] }) rfl⟩

/-- Claim C9.  A list of flat-string messages normalizes to exactly one text
block per message, role and content verbatim and order preserved, whatever the
image processor does; and a mixed content list (with images processing
successfully, within the cap) maps each `text` item to a text block, each
`image_url` item to an image block, and drops every other item type without
error. -/
theorem C9_normalization :
    (∀ (l : List (String × String)) (procImg : ImageDict → Except String ImageBlock),
        processMessagesR procImg
            (l.map (fun rs => { role := rs.1, content := RawContent.str rs.2 })) 0 =
          (Except.ok (l.map (fun rs => { role := rs.1, content := [Block.text rs.2] }), 0),
            [])) ∧
    (∀ (role : String) (items : List ContentItem) (f : ImageDict → ImageBlock),
        (imageRefsItems items).length ≤ 20 →
        processMessagesR (fun i => Except.ok (f i))
            [{ role := role, content := RawContent.items items }] 0 =
          (Except.ok ([{ role := role, content := itemsBlocks f items }],
            (imageRefsItems items).length), imageRefsItems items)) := by
  constructor
  · intro l procImg
    induction l with
    | nil => rfl
    | cons p rest ih => simp [processMessagesR, ih]
  · intro role items f h
    have := processItemsR_ok f items 0 (by omega)
    simp [processMessagesR, this]

/-- Witness for C9: a flat-string message, and a mixed list holding one text
item, one image item and one unrecognized item. -/
theorem C9_normalization_witness :
    processMessagesR (fun _ => Except.error "unused")
        [{ role := "user", content := RawContent.str "hello" }] 0 =
      (Except.ok ([{ role := "user", content := [Block.text "hello"] }], 0), []) ∧
    processMessagesR (fun _ => Except.ok { format := "jpeg", bytes := [1] })
        [{ role := "user",
           content := RawContent.items
             [ContentItem.text "hi", ContentItem.image_url { url := "u" },
              ContentItem.other "audio"] }] 0 =
      (Except.ok
        ([{ role := "user",
            content := [Block.text "hi", Block.image { format := "jpeg", bytes := [1] }] }],
          1),
        [{ url := "u" }]) :=
  ⟨C9_normalization.1 [("user", "hello")] (fun _ => Except.error "unused"),
   C9_normalization.2 "user"
     [ContentItem.text "hi", ContentItem.image_url { url := "u" }, ContentItem.other "audio"]
     (fun _ => { format := "jpeg", bytes := [1] }) (by decide)⟩

/-- Claim C8.  A model id absent from the published catalog resolves to the
default region `us-east-1` (the scan falls through to the final return), and
every region string `get_model_region` can produce maps to one of the two
pre-built runtime clients, because `get_runtime_client` is a total two-way
branch. -/
theorem C8_default_region :
    (∀ (pipelines : List ModelEntry) (model_id : String),
        (∀ m ∈ pipelines, m.id ≠ model_id) →
        get_model_region pipelines model_id = "us-east-1") ∧
    (∀ (pipelines : List ModelEntry) (model_id : String),
        get_runtime_client (get_model_region pipelines model_id) = RuntimeClient.east ∨
        get_runtime_client (get_model_region pipelines model_id) = RuntimeClient.west) := by
  constructor
  · intro pipelines model_id h
    induction pipelines with
    | nil => rfl
    | cons m rest ih =>
      have hm : m.id ≠ model_id := h m (List.mem_cons_self m rest)
      simp only [get_model_region, if_neg hm]
      exact ih (fun x hx => h x (List.mem_cons_of_mem _ hx))
  · intro pipelines model_id
    unfold get_runtime_client
    by_cases h : get_model_region pipelines model_id = "us-east-1" <;> simp [h]

/-- Witness for C8 at a concrete absent id and the empty catalog. -/
theorem C8_default_region_witness :
    get_model_region [] "anthropic.claude-v2" = "us-east-1" ∧
    (get_runtime_client (get_model_region [] "anthropic.claude-v2") = RuntimeClient.east ∨
     get_runtime_client (get_model_region [] "anthropic.claude-v2") = RuntimeClient.west) :=
  ⟨C8_default_region.1 [] "anthropic.claude-v2" (by simp),
   C8_default_region.2 [] "anthropic.claude-v2"⟩

/-- Claim C10.  Region lookup returns the region of the first catalog entry
whose id matches: whatever follows that entry — including further entries with
the same id — cannot change the result. -/
theorem C10_first_match_wins (l1 : List ModelEntry) (e : ModelEntry) (l2 : List ModelEntry)
    (model_id : String) (he : e.id = model_id) (hl : ∀ m ∈ l1, m.id ≠ model_id) :
    get_model_region (l1 ++ e :: l2) model_id = e.region := by
  induction l1 with
  | nil => simp [get_model_region, he]
  | cons m rest ih =>
    have hm : m.id ≠ model_id := hl m (List.mem_cons_self m rest)
    simp only [List.cons_append, get_model_region, if_neg hm]
    exact ih (fun x hx => hl x (List.mem_cons_of_mem _ hx))

/-- Witness for C10: with two failure sentinels sharing the id `"error"`, the
earlier entry (region `us-east-1`) alone determines routing. -/
theorem C10_first_match_wins_witness :
    get_model_region
      [{ id := "error", name := "Error fetching east models", region := "us-east-1",
         description := none },
       { id := "error", name := "Error fetching west models", region := "us-west-2",
         description := none }] "error" = "us-east-1" :=
  C10_first_match_wins []
    { id := "error", name := "Error fetching east models", region := "us-east-1",
      description := none }
    [{ id := "error", name := "Error fetching west models", region := "us-west-2",
       description := none }] "error" rfl (by simp)

end BedrockModels
